import Mathlib

/-!
Shallow embedding of the AI_BBS store layer (src/bbs_server/db/database.py and
the identity-registration route of src/bbs_server/main.py).

Modelling conventions:
* Machine floats become exact rationals `ℚ`; the two transcendental scores
  (the `0.5 ** x` recency decay and the `** 1.5` hotness denominator) are
  stated over `ℝ` with real exponentiation.
* A stored vector blob (`np.float32` bytes) is modelled by `Blob`: `vals` is
  the list of aligned 4-byte float payloads and `ragged` the count of
  leftover bytes beyond the aligned part.  `np.frombuffer` raises exactly
  when the byte length is not a multiple of 4, i.e. when `ragged ≠ 0`;
  `serialize_vector` always writes an aligned blob.
* Raised Python exceptions become `Except DBError` results threaded through
  each scan in row order, so the first corrupt row aborts the scan exactly
  where the `for` loop raises.
* The floating cosine similarity used by the scans is abstracted as a
  parameter `sim : List ℚ → List ℚ → ℚ`: the scan logic (threshold,
  ordering, windowing) never depends on which function it is.  The checks
  `cosine_similarity` itself performs (or fails to perform) are modelled
  separately and exactly, in `cosine_similarity` below.
* Python's `list.sort(key=..., reverse=True)` is a stable descending sort;
  a stable sort for a total transitive comparison is extensionally unique,
  so it is modelled by `List.insertionSort` with the flipped relation.
* SQL semantics modelled: `ORDER BY timestamp DESC` sorts by the timestamp
  field descending (ISO strings compare chronologically; timestamps are ℚ
  here); `LIKE '%"tag"%'` is a substring test for `"tag"` quoted; an
  `UPDATE`'s `rowcount` counts the rows matched by its WHERE clause (SQLite
  counts a row even when the stored value is unchanged); `INSERT` conflicts
  on a primary key raise `IntegrityError`.
-/

namespace BBS

/-- Storage-corruption failure: `np.frombuffer` raising on a blob whose byte
length is not a multiple of the element size. -/
inductive DBError where
  | corruptData
deriving DecidableEq

/-- A stored `BLOB` column value: `vals` are the aligned 4-byte float32
payloads, `ragged` counts the leftover bytes (a well-formed encoding has
`ragged = 0`). -/
structure Blob where
  vals : List ℚ
  ragged : ℕ
deriving DecidableEq

/-- `serialize_vector`: `np.array(vec, dtype=np.float32).tobytes()` — always
an aligned blob carrying exactly the vector's components. -/
def serialize_vector (vec : List ℚ) : Blob :=
  Blob.mk vec 0

/-- `deserialize_vector`: `np.frombuffer(data, dtype=np.float32).tolist()` —
raises (ValueError) iff the byte length is not a multiple of 4. -/
def deserialize_vector (data : Blob) : Except DBError (List ℚ) :=
  if data.ragged = 0 then .ok data.vals else .error .corruptData

/-- The failure `np.dot` raises when the two 1-D arrays have different
lengths (a shape/dimension mismatch). -/
inductive SimError where
  | dimMismatch
deriving DecidableEq

/-- Outcome of the float division in `cosine_similarity`.  `divByZero` marks
the run whose denominator `norm(a) * norm(b)` is zero, which IEEE arithmetic
turns into `nan` rather than an exception; `finite` carries the exact dot
product and the squared norms (the float value is `num / (√sqA * √sqB)`). -/
inductive SimValue where
  | divByZero
  | finite (num sqA sqB : ℚ)
deriving DecidableEq

/-- Squared Euclidean norm: `np.linalg.norm(a) ** 2` computed exactly.  The
real norm is zero exactly when this rational is zero. -/
def sq_norm (v : List ℚ) : ℚ :=
  (v.map (fun x => x * x)).sum

/-- `np.dot` of two equal-length 1-D arrays, computed exactly. -/
def dot_product (v w : List ℚ) : ℚ :=
  (List.zipWith (fun x y => x * y) v w).sum

/-- `cosine_similarity(vec1, vec2)`: `np.dot(a, b) / (norm(a) * norm(b))`.
`np.dot` raises on a length mismatch; otherwise the division is performed
unconditionally — a zero denominator yields the `nan` sentinel
(`divByZero`), not an exception. -/
def cosine_similarity (vec1 vec2 : List ℚ) : Except SimError SimValue :=
  if vec1.length = vec2.length then
    if sq_norm vec1 = 0 ∨ sq_norm vec2 = 0 then .ok .divByZero
    else .ok (.finite (dot_product vec1 vec2) (sq_norm vec1) (sq_norm vec2))
  else .error .dimMismatch

/-- `SIMILARITY_THRESHOLD = 0.85`. -/
def SIMILARITY_THRESHOLD : ℚ := 85 / 100

/-- A row of the `identities` table. -/
structure Identity where
  public_key : String
  display_name : String
  wireguard_ip : String
  created_at : ℚ
  shibboleth : String
  shibboleth_vector : Blob
  approved : Bool
deriving DecidableEq

/-- A row of the `posts` table (`hashtags` and `appends` are stored as JSON
text; `appends` is modelled decoded as its list of (timestamp, content)
entries, `hashtags` as the raw stored string since the hashtag filter is a
SQL `LIKE` on that string). -/
structure Post where
  id : String
  author : String
  author_key : String
  timestamp : ℚ
  content : String
  vector : Blob
  hashtags : String
  likes : ℕ
  parent_id : Option String
  appends : List (ℚ × String)
deriving DecidableEq

/-- A row of the `likes` table. -/
structure LikeRow where
  post_id : String
  user_key : String
  timestamp : ℚ
deriving DecidableEq

/-- The database state: the three tables the claims touch. -/
structure Store where
  identities : List Identity
  posts : List Post
  likes : List LikeRow
deriving DecidableEq

/-- `json.dumps` of a list of hashtag strings (tags are plain words in this
system; JSON escaping inside a tag is out of scope of every claim). -/
def json_dumps_tags (tags : List String) : String :=
  "[" ++ String.intercalate ", " (tags.map (fun t => "\"" ++ t ++ "\"")) ++ "]"

/-- Whether `needle` occurs as a contiguous subsequence of `hay`. -/
def containsSeq : List Char → List Char → Bool
  | needle, [] => needle.isEmpty
  | needle, c :: rest => needle.isPrefixOf (c :: rest) || containsSeq needle rest

/-- The SQL filter `hashtags LIKE '%"tag"%'`: the stored JSON text contains
the tag surrounded by double quotes. -/
def hashtag_like (tag stored : String) : Bool :=
  containsSeq ("\"" ++ tag ++ "\"").data stored.data

/-- Python's stable `sort(key=lambda p: p.timestamp, reverse=True)` /
SQL `ORDER BY timestamp DESC`, determinised as the stable descending sort. -/
def sortByTimestampDesc (l : List Post) : List Post :=
  List.insertionSort (fun a b => b.timestamp ≤ a.timestamp) l

/-- `results.sort(key=lambda x: x[1], reverse=True)` over post results:
stable descending sort on the similarity component. -/
def sortBySimDescP (l : List (Post × ℚ)) : List (Post × ℚ) :=
  List.insertionSort (fun a b => b.2 ≤ a.2) l

/-- `results.sort(key=lambda x: x[1], reverse=True)` over identity results. -/
def sortBySimDescI (l : List (Identity × ℚ)) : List (Identity × ℚ) :=
  List.insertionSort (fun a b => b.2 ≤ a.2) l

/-- Stable descending sort on a real-valued score component (used by
`apply_algorithm` and `list_posts_hot`). -/
noncomputable def sortByScoreDesc (l : List (Post × ℝ)) : List (Post × ℝ) :=
  List.insertionSort (fun a b => b.2 ≤ a.2) l

/-- `create_post`: unconditional `INSERT` into `posts` (likes default 0,
appends default `'[]'`).  A duplicate id would raise `IntegrityError`
uncaught, so reachable states only ever create fresh ids. -/
def create_post (s : Store) (id author author_key content : String)
    (vector : List ℚ) (hashtags : List String) (parent_id : Option String)
    (now : ℚ) : Store :=
  Store.mk s.identities
    (s.posts ++ [Post.mk id author author_key now content
      (serialize_vector vector) (json_dumps_tags hashtags) 0 parent_id []])
    s.likes

/-- `SELECT likes FROM posts WHERE id = ?` then `row['likes'] if row else 0`. -/
def post_likes (s : Store) (post_id : String) : ℕ :=
  match s.posts.find? (fun p => p.id == post_id) with
  | some p => p.likes
  | none => 0

/-- The duplicate test of `INSERT INTO likes`: the `(post_id, user_key)`
primary key already holds a row (the insert then raises `IntegrityError`). -/
def likeRowPresent (s : Store) (post_id user_key : String) : Bool :=
  s.likes.any (fun r => r.post_id == post_id && r.user_key == user_key)

/-- `like_post`: insert the ledger row and increment the counter of every
post matched by `UPDATE posts SET likes = likes + 1 WHERE id = ?`; on a
duplicate pair the `IntegrityError` skips both statements (`pass`).  Returns
the post's current counter (0 when the post is missing). -/
def like_post (s : Store) (post_id user_key : String) (now : ℚ) : Store × ℕ :=
  let s2 :=
    if likeRowPresent s post_id user_key then s
    else
      Store.mk s.identities
        (s.posts.map (fun p =>
          if p.id = post_id then { p with likes := p.likes + 1 } else p))
        (s.likes ++ [LikeRow.mk post_id user_key now])
  (s2, post_likes s2 post_id)

/-- `approve_identity`: `UPDATE identities SET approved = 1 WHERE
public_key = ?`, returning `rowcount > 0`.  SQLite's rowcount counts every
row matched by the WHERE clause, including rows whose `approved` was
already 1. -/
def approve_identity (s : Store) (public_key : String) : Store × Bool :=
  (Store.mk
    (s.identities.map (fun i =>
      if i.public_key = public_key then { i with approved := true } else i))
    s.posts s.likes,
   s.identities.any (fun i => i.public_key == public_key))

/-- `append_to_post`: fetch the post; return `False` when it is missing or
the requester is not its author; otherwise write the fetched row's appends
list extended by the new entry back to every row with that id. -/
def append_to_post (s : Store) (post_id author_key content : String)
    (now : ℚ) : Store × Bool :=
  match s.posts.find? (fun p => p.id == post_id) with
  | none => (s, false)
  | some p =>
    if p.author_key = author_key then
      (Store.mk s.identities
        (s.posts.map (fun q =>
          if q.id = post_id then { q with appends := p.appends ++ [(now, content)] }
          else q))
        s.likes, true)
    else (s, false)

/-- The scan loop of `find_similar_shibboleths`: deserialize each identity's
shibboleth vector in row order, keep `(identity, similarity)` when the
similarity reaches the threshold; the first corrupt blob raises. -/
def score_identities (sim : List ℚ → List ℚ → ℚ) (qv : List ℚ) :
    List Identity → Except DBError (List (Identity × ℚ))
  | [] => .ok []
  | i :: rest =>
    match deserialize_vector i.shibboleth_vector with
    | .error e => .error e
    | .ok v =>
      match score_identities sim qv rest with
      | .error e => .error e
      | .ok tl =>
        .ok (if SIMILARITY_THRESHOLD ≤ sim qv v then (i, sim qv v) :: tl else tl)

/-- `find_similar_shibboleths(vector, limit)`: scan all identities, keep the
threshold-reaching ones, sort descending by similarity, truncate to
`limit`. -/
def find_similar_shibboleths (sim : List ℚ → List ℚ → ℚ) (vector : List ℚ)
    (s : Store) (limit : ℕ) : Except DBError (List (Identity × ℚ)) :=
  match score_identities sim vector s.identities with
  | .error e => .error e
  | .ok results => .ok ((sortBySimDescI results).take limit)

/-- `db.register_identity`: one atomic `INSERT INTO identities`; `none`
models the caught `IntegrityError` (the key, name or address collides) and
the `False` return; a fresh identity starts unapproved. -/
def register_identity (s : Store)
    (display_name public_key wireguard_ip shibboleth : String)
    (shibboleth_vector : List ℚ) (now : ℚ) : Option Store :=
  if s.identities.any (fun i =>
      i.public_key == public_key || i.display_name == display_name ||
      i.wireguard_ip == wireguard_ip)
  then none
  else some (Store.mk
    (s.identities ++ [Identity.mk public_key display_name wireguard_ip now
      shibboleth (serialize_vector shibboleth_vector) false])
    s.posts s.likes)

/-- Outcome of the registration route: the 409 duplicate-shibboleth
rejection carrying the matched identity and its similarity, the 409
uniqueness conflict, or success. -/
inductive RegOutcome where
  | duplicateShibboleth (matched : Identity) (similarity : ℚ)
  | conflict
  | registered
deriving DecidableEq

/-- The `/identity/register` route after its dimension validation:
`find_similar_shibboleths(vector, limit=1)`; a non-empty result is the
duplicate-shibboleth rejection naming its head; otherwise attempt the
insert. -/
def api_register_identity (sim : List ℚ → List ℚ → ℚ) (s : Store)
    (display_name public_key wireguard_ip shibboleth : String)
    (shibboleth_vector : List ℚ) (now : ℚ) :
    Except DBError (RegOutcome × Store) :=
  match find_similar_shibboleths sim shibboleth_vector s 1 with
  | .error e => .error e
  | .ok ((existing, similarity) :: _) =>
    .ok (.duplicateShibboleth existing similarity, s)
  | .ok [] =>
    match register_identity s display_name public_key wireguard_ip
        shibboleth shibboleth_vector now with
    | some s2 => .ok (.registered, s2)
    | none => .ok (.conflict, s)

/-- The scan loop of `find_similar_posts`: deserialize each post's vector in
row order, keep `(post, similarity)` when the similarity reaches the
threshold; the first corrupt blob raises. -/
def score_posts_threshold (sim : List ℚ → List ℚ → ℚ) (qv : List ℚ) :
    List Post → Except DBError (List (Post × ℚ))
  | [] => .ok []
  | p :: rest =>
    match deserialize_vector p.vector with
    | .error e => .error e
    | .ok v =>
      match score_posts_threshold sim qv rest with
      | .error e => .error e
      | .ok tl =>
        .ok (if SIMILARITY_THRESHOLD ≤ sim qv v then (p, sim qv v) :: tl else tl)

/-- The scan loop of `search_posts`: deserialize each post's vector in row
order and score every candidate (no threshold); the first corrupt blob
raises. -/
def score_posts_all (sim : List ℚ → List ℚ → ℚ) (qv : List ℚ) :
    List Post → Except DBError (List (Post × ℚ))
  | [] => .ok []
  | p :: rest =>
    match deserialize_vector p.vector with
    | .error e => .error e
    | .ok v =>
      match score_posts_all sim qv rest with
      | .error e => .error e
      | .ok tl => .ok ((p, sim qv v) :: tl)

/-- `find_similar_posts(vector, limit)`: `SELECT * FROM posts ORDER BY
timestamp DESC LIMIT 1000`, threshold scan, stable descending sort by
similarity, truncate to `limit`. -/
def find_similar_posts (sim : List ℚ → List ℚ → ℚ) (vector : List ℚ)
    (s : Store) (limit : ℕ) : Except DBError (List (Post × ℚ)) :=
  match score_posts_threshold sim vector ((sortByTimestampDesc s.posts).take 1000) with
  | .error e => .error e
  | .ok results => .ok ((sortBySimDescP results).take limit)

/-- `search_posts(query_vector, hashtag, limit, offset)`: the whole table
(optionally `WHERE hashtags LIKE '%"tag"%'`), ordered by timestamp
descending with no window, scored with no threshold, stable-sorted
descending by similarity, then sliced `results[offset : offset + limit]`. -/
def search_posts (sim : List ℚ → List ℚ → ℚ) (query_vector : List ℚ)
    (s : Store) (hashtag : Option String) (limit offset : ℕ) :
    Except DBError (List (Post × ℚ)) :=
  let rows :=
    match hashtag with
    | some tag => sortByTimestampDesc (s.posts.filter (fun p => hashtag_like tag p.hashtags))
    | none => sortByTimestampDesc s.posts
  match score_posts_all sim query_vector rows with
  | .error e => .error e
  | .ok results => .ok (((sortBySimDescP results).drop offset).take limit)

/-- The caller-supplied algorithm weights dictionary: each key may be
absent. -/
structure Weights where
  semantic_similarity : Option ℚ
  likes : Option ℚ
  recency_decay : Option ℚ
  recency_halflife_hours : Option ℚ
deriving DecidableEq

/-- `recency_factor = 0.5 ** (hours_since_post / halflife_hours) if
halflife_hours > 0 else 1.0`. -/
noncomputable def recency_factor (hours_since_post halflife_hours : ℚ) : ℝ :=
  if 0 < halflife_hours
  then ((1 : ℝ) / 2) ^ ((hours_since_post / halflife_hours : ℚ) : ℝ)
  else 1

/-- `apply_algorithm(results, weights)`: empty input returned unchanged;
weights default to semantic 1.0, likes 0.3, recency 0.1, half-life 24;
`max_likes` is the candidate set's maximum likes, replaced by 1 when 0;
each pair is rescored `similarity * w_semantic + normalized_likes * w_likes
+ recency_factor * w_recency` and the list stable-sorted descending by the
score. -/
noncomputable def apply_algorithm (results : List (Post × ℚ)) (weights : Weights)
    (now : ℚ) : List (Post × ℝ) :=
  if results = [] then []
  else
    let w_semantic := weights.semantic_similarity.getD 1
    let w_likes := weights.likes.getD (3 / 10)
    let w_recency := weights.recency_decay.getD (1 / 10)
    let halflife_hours := weights.recency_halflife_hours.getD 24
    let max_likes0 := (results.map (fun pr => pr.1.likes)).foldr max 0
    let max_likes := if max_likes0 = 0 then 1 else max_likes0
    sortByScoreDesc (results.map (fun pr =>
      (pr.1,
        (pr.2 : ℝ) * (w_semantic : ℝ)
        + (((pr.1.likes : ℚ) / (max_likes : ℚ)) : ℝ) * (w_likes : ℝ)
        + recency_factor ((now - pr.1.timestamp) / 3600) halflife_hours * (w_recency : ℝ))))

/-- `COUNT(*) FROM posts WHERE parent_id = ?`. -/
def reply_count (s : Store) (post_id : String) : ℕ :=
  (s.posts.filter (fun q => q.parent_id == some post_id)).length

/-- The hotness score: `(likes + reply_count * 2) / ((hours_since + 2) **
1.5)`; `hours_since` is the already-floored hours value. -/
noncomputable def hotness (likes replies : ℕ) (hours_since : ℚ) : ℝ :=
  ((likes + replies * 2 : ℕ) : ℝ) / (((hours_since + 2 : ℚ) : ℝ) ^ (1.5 : ℝ))

/-- The scan loop of `list_posts_hot`: each top-level row is deserialized
(a corrupt blob raises), its direct replies counted, its age floored at 0.1
hours, and its hotness computed. -/
noncomputable def hot_scan (s : Store) (now : ℚ) :
    List Post → Except DBError (List (Post × ℝ))
  | [] => .ok []
  | p :: rest =>
    match deserialize_vector p.vector with
    | .error e => .error e
    | .ok _ =>
      match hot_scan s now rest with
      | .error e => .error e
      | .ok tl =>
        .ok ((p, hotness p.likes (reply_count s p.id)
          (max ((now - p.timestamp) / 3600) (1 / 10))) :: tl)

/-- `list_posts_hot(hashtag, limit, offset)`: top-level posts only
(optionally hashtag-filtered), scored by hotness, stable-sorted descending,
then sliced `[offset : offset + limit]`. -/
noncomputable def list_posts_hot (s : Store) (now : ℚ) (hashtag : Option String)
    (limit offset : ℕ) : Except DBError (List (Post × ℝ)) :=
  let rows :=
    match hashtag with
    | some tag => s.posts.filter (fun p => hashtag_like tag p.hashtags && p.parent_id.isNone)
    | none => s.posts.filter (fun p => p.parent_id.isNone)
  match hot_scan s now rows with
  | .error e => .error e
  | .ok scored => .ok (((sortByScoreDesc scored).drop offset).take limit)

/-! ### Spec-side definitions

Each `spec_*` definition below transcribes the words of a claim (the
specification's description of an operation), to be compared with the
corresponding source-side definition above. -/

/-- Spec wording (claim C2): the candidate window of the dedup lookup — the
1000 most recent posts by timestamp. -/
def spec_recent_window (s : Store) : List Post :=
  (sortByTimestampDesc s.posts).take 1000

/-- Spec wording (claim C2): from the recent window, exactly the
`(post, similarity)` pairs with similarity ≥ 0.85, sorted descending by
similarity and truncated to `limit`. -/
def spec_find_similar (sim : List ℚ → List ℚ → ℚ) (qv : List ℚ) (s : Store)
    (limit : ℕ) : List (Post × ℚ) :=
  (sortBySimDescP ((spec_recent_window s).filterMap (fun p =>
    if SIMILARITY_THRESHOLD ≤ sim qv p.vector.vals
    then some (p, sim qv p.vector.vals) else none))).take limit

/-- Spec wording (claim C2): semantic search considers every post in the
store (optionally pre-filtered by hashtag), scores each with no threshold,
sorts all candidates descending by raw similarity, then applies offset and
limit. -/
def spec_search (sim : List ℚ → List ℚ → ℚ) (qv : List ℚ) (s : Store)
    (hashtag : Option String) (limit offset : ℕ) : List (Post × ℚ) :=
  let candidates :=
    match hashtag with
    | some tag => sortByTimestampDesc (s.posts.filter (fun p => hashtag_like tag p.hashtags))
    | none => sortByTimestampDesc s.posts
  ((sortBySimDescP (candidates.map (fun p => (p, sim qv p.vector.vals)))).drop
    offset).take limit

/-- Spec wording (claim C3): the weighted ranking formula
`similarity * w_sem + (likes / maxLikesInSet) * w_likes +
0.5 ^ (hoursSincePost / halflifeHours) * w_recency`, with the stated
defaults, `maxLikesInSet` substituted by 1 when the maximum is 0, and a
stable descending sort by score.  The decay is applied as written, with no
guard on the sign of the half-life. -/
noncomputable def spec_weighted_rank (results : List (Post × ℚ)) (weights : Weights)
    (now : ℚ) : List (Post × ℝ) :=
  let w_sem := weights.semantic_similarity.getD 1
  let w_lik := weights.likes.getD (3 / 10)
  let w_rec := weights.recency_decay.getD (1 / 10)
  let halflife := weights.recency_halflife_hours.getD 24
  let maxLikes0 := (results.map (fun pr => pr.1.likes)).foldr max 0
  let maxLikesInSet := if maxLikes0 = 0 then 1 else maxLikes0
  sortByScoreDesc (results.map (fun pr =>
    (pr.1,
      (pr.2 : ℝ) * (w_sem : ℝ)
      + (((pr.1.likes : ℚ) / (maxLikesInSet : ℚ)) : ℝ) * (w_lik : ℝ)
      + ((1 : ℝ) / 2) ^ (((now - pr.1.timestamp) / 3600 / halflife : ℚ) : ℝ) * (w_rec : ℝ))))

/-- Spec wording (claim C4): score only top-level posts, each with hotness
`(likes + replyCount * 2) / (hoursSincePost + 2) ^ 1.5` and the age floored
at 0.1 hours, and return them sorted descending by hotness (with the
listing's offset and limit applied). -/
noncomputable def spec_hot_list (s : Store) (now : ℚ) (hashtag : Option String)
    (limit offset : ℕ) : List (Post × ℝ) :=
  let tops : List Post :=
    match hashtag with
    | some tag => s.posts.filter (fun p => hashtag_like tag p.hashtags && p.parent_id.isNone)
    | none => s.posts.filter (fun p => p.parent_id.isNone)
  ((sortByScoreDesc (tops.map (fun p =>
    (p, hotness p.likes (reply_count s p.id)
      (max ((now - p.timestamp) / 3600) (1 / 10)))))).drop offset).take limit

/-- Spec wording (claim C8): the guard the specification requires of
`cosineSimilarity` — a failure on a length mismatch, and no division by a
zero product of norms (a zero-norm operand must be rejected or diverted to
a checked sentinel before the division). -/
def spec_cosine_guard : Prop :=
  ∀ vec1 vec2 : List ℚ,
    (vec1.length ≠ vec2.length → ∃ e, cosine_similarity vec1 vec2 = .error e) ∧
    ((sq_norm vec1 = 0 ∨ sq_norm vec2 = 0) →
      cosine_similarity vec1 vec2 ≠ .ok .divByZero)

/-- `ledger_count`: the number of rows of the likes ledger for one post id. -/
def ledger_count (s : Store) (post_id : String) : ℕ :=
  (s.likes.filter (fun r => r.post_id == post_id)).length

/-- The store states reachable from an empty store by `create_post` (with a
fresh id — a duplicate would raise `IntegrityError`) and by `like_post`
whose post id refers to an existing post (claim C10's operation set). -/
inductive Reachable : Store → Prop
  | empty : Reachable (Store.mk [] [] [])
  | create (s : Store) (id author author_key content : String)
      (vector : List ℚ) (hashtags : List String) (parent_id : Option String)
      (now : ℚ) (hs : Reachable s) (hfresh : ∀ p ∈ s.posts, p.id ≠ id) :
      Reachable (create_post s id author author_key content vector hashtags parent_id now)
  | like (s : Store) (post_id user_key : String) (now : ℚ)
      (hs : Reachable s) (hmem : ∃ p ∈ s.posts, p.id = post_id) :
      Reachable (like_post s post_id user_key now).1

/-! ### Helper lemmas -/

/-- A duplicate `(post_id, user_key)` pair: both statements are skipped and
the current counter is returned. -/
theorem like_post_of_present (s : Store) (post_id user_key : String) (now : ℚ)
    (h : likeRowPresent s post_id user_key = true) :
    like_post s post_id user_key now = (s, post_likes s post_id) := by
  simp [like_post, h]

/-- A fresh `(post_id, user_key)` pair: the ledger row is inserted and every
post matching the id has its counter incremented. -/
theorem like_post_of_fresh (s : Store) (post_id user_key : String) (now : ℚ)
    (h : likeRowPresent s post_id user_key = false) :
    (like_post s post_id user_key now).1 =
      Store.mk s.identities
        (s.posts.map (fun p =>
          if p.id = post_id then { p with likes := p.likes + 1 } else p))
        (s.likes ++ [LikeRow.mk post_id user_key now]) := by
  simp [like_post, h]

/-- After any `like_post` call the pair is present in the ledger. -/
theorem likeRowPresent_after_like (s : Store) (post_id user_key : String) (now : ℚ) :
    likeRowPresent (like_post s post_id user_key now).1 post_id user_key = true := by
  by_cases h : likeRowPresent s post_id user_key
  · rw [like_post_of_present s post_id user_key now h]
    exact h
  · rw [like_post_of_fresh s post_id user_key now (by simpa using h)]
    simp [likeRowPresent, List.any_append]

/-- The returned counter always equals the stored counter of the resulting
state. -/
theorem like_post_snd (s : Store) (post_id user_key : String) (now : ℚ) :
    (like_post s post_id user_key now).2 =
      post_likes (like_post s post_id user_key now).1 post_id := rfl

/-- A second like of the same pair changes nothing and returns the same
counter. -/
theorem like_post_again (s : Store) (post_id user_key : String) (now now2 : ℚ) :
    like_post (like_post s post_id user_key now).1 post_id user_key now2
      = like_post s post_id user_key now := by
  rw [like_post_of_present _ post_id user_key now2
    (likeRowPresent_after_like s post_id user_key now)]
  exact rfl

/-! C5 -/

/-- Claim C5: the like operation is idempotent — a duplicate `(post, user)`
pair is silently ignored and the counter not incremented again, the call
always returns the post's current counter, a fresh pair appends one ledger
row and increments each matching post once, repeating a like is a complete
no-op, and two distinct users' likes increment the counter twice. -/
theorem like_post_idempotent (s : Store) (post_id user_key : String) (now : ℚ) :
    (likeRowPresent s post_id user_key = true →
      like_post s post_id user_key now = (s, post_likes s post_id)) ∧
    ((like_post s post_id user_key now).2 =
      post_likes (like_post s post_id user_key now).1 post_id) ∧
    (likeRowPresent s post_id user_key = false →
      (like_post s post_id user_key now).1 =
        Store.mk s.identities
          (s.posts.map (fun p =>
            if p.id = post_id then { p with likes := p.likes + 1 } else p))
          (s.likes ++ [LikeRow.mk post_id user_key now])) ∧
    (∀ now2 : ℚ,
      like_post (like_post s post_id user_key now).1 post_id user_key now2
        = like_post s post_id user_key now) ∧
    (∀ (user2 : String) (now2 : ℚ), user2 ≠ user_key →
      likeRowPresent s post_id user_key = false →
      likeRowPresent s post_id user2 = false →
      ((like_post (like_post s post_id user_key now).1 post_id user2 now2).1).posts =
        s.posts.map (fun p =>
          if p.id = post_id then { p with likes := p.likes + 2 } else p)) := by
  refine ⟨like_post_of_present s post_id user_key now,
    like_post_snd s post_id user_key now,
    like_post_of_fresh s post_id user_key now,
    like_post_again s post_id user_key now, ?_⟩
  intro user2 now2 hne h1 h2
  have hs1 := like_post_of_fresh s post_id user_key now h1
  have h2' : likeRowPresent (like_post s post_id user_key now).1 post_id user2 = false := by
    rw [hs1]
    simp only [likeRowPresent] at h2 ⊢
    simp [List.any_append, h2]
    exact fun h => hne h.symm
  rw [like_post_of_fresh _ post_id user2 now2 h2', hs1]
  simp only [List.map_map]
  refine List.map_congr_left ?_
  intro p _
  by_cases hp : p.id = post_id
  · simp [Function.comp, hp]
  · simp [Function.comp, hp]

/-- Witness for C5: a store with one post (5 stored likes) whose ledger
already holds the pair — the call is a no-op returning the stored count. -/
def likedPostW : Post := Post.mk "p1" "alice" "k1" 0 "hi" (Blob.mk [1] 0) "[]" 5 none []

/-- Witness store for C5. -/
def likedStoreW : Store := Store.mk [] [likedPostW] [LikeRow.mk "p1" "u1" 0]

/-- Witness: C5 instantiated at `likedStoreW` with its hypothesis decided. -/
theorem like_post_idempotent_witness :
    like_post likedStoreW "p1" "u1" 2 = (likedStoreW, post_likes likedStoreW "p1") :=
  (like_post_idempotent likedStoreW "p1" "u1" 2).1 (by decide)

/-! C6 -/

/-- An identity whose `approved` flag is already set. -/
def approvedIdentityW : Identity :=
  Identity.mk "k" "Alice" "10.0.0.1" 0 "my shibboleth" (Blob.mk [1] 0) true

/-- A store holding only an already-approved identity. -/
def approvedStoreW : Store := Store.mk [approvedIdentityW] [] []

/-- Counterexample to C6 as stated: re-approving an already-approved
identity returns `true` (the UPDATE's rowcount counts the matched row even
though no pending→approved change happened), not `false`. -/
theorem approve_identity_claim_cex :
    ¬ (((approve_identity approvedStoreW "k").2 = true) ↔
        ∃ i ∈ approvedStoreW.identities, i.public_key = "k" ∧ i.approved = false) := by
  decide

/-- Claim C6 (amended): approve returns `true` exactly when an identity
with that key exists, whatever its prior approval state (re-approval also
returns `true`); an unknown key returns `false` and leaves the store
unchanged; the transition is idempotent and one-way. -/
theorem approve_identity_spec (s : Store) (public_key : String) :
    (((approve_identity s public_key).2 = true) ↔
      ∃ i ∈ s.identities, i.public_key = public_key) ∧
    ((¬ ∃ i ∈ s.identities, i.public_key = public_key) →
      (approve_identity s public_key).1 = s) ∧
    approve_identity (approve_identity s public_key).1 public_key
      = approve_identity s public_key := by
  refine ⟨?_, ?_, ?_⟩
  · simp [approve_identity, List.any_eq_true]
  · intro h
    have hid : ∀ i ∈ s.identities,
        (if i.public_key = public_key then { i with approved := true } else i) = i := by
      intro i hi
      rw [if_neg]
      exact fun hip => h ⟨i, hi, hip⟩
    have hmap : s.identities.map
        (fun i => if i.public_key = public_key then { i with approved := true } else i)
        = s.identities :=
      (List.map_congr_left hid).trans (List.map_id s.identities)
    simp only [approve_identity]
    rw [hmap]
  · simp only [approve_identity, List.map_map, List.any_map]
    have hff : ((fun i : Identity =>
          if i.public_key = public_key then { i with approved := true } else i) ∘
        (fun i : Identity =>
          if i.public_key = public_key then { i with approved := true } else i)) =
        (fun i : Identity =>
          if i.public_key = public_key then { i with approved := true } else i) := by
      funext i
      by_cases hi : i.public_key = public_key <;> simp [Function.comp, hi]
    have hpf : ((fun i : Identity => i.public_key == public_key) ∘
        (fun i : Identity =>
          if i.public_key = public_key then { i with approved := true } else i)) =
        (fun i : Identity => i.public_key == public_key) := by
      funext i
      by_cases hi : i.public_key = public_key <;> simp [Function.comp, hi]
    rw [hff, hpf]

/-- Witness for C6's amended theorem: on a store without the key, the store
is unchanged. -/
theorem approve_identity_spec_witness :
    (approve_identity approvedStoreW "unknown").1 = approvedStoreW :=
  (approve_identity_spec approvedStoreW "unknown").2.1 (by decide)

/-! C7 -/

/-- Claim C7: append succeeds exactly when the post exists and the
requester key equals its author's key; every other case returns `false`
with the store unchanged (post ids are unique — the table's primary key). -/
theorem append_to_post_auth (s : Store) (post_id author_key content : String)
    (now : ℚ) (hids : (s.posts.map Post.id).Nodup) :
    (((append_to_post s post_id author_key content now).2 = true) ↔
      ∃ p ∈ s.posts, p.id = post_id ∧ p.author_key = author_key) ∧
    ((append_to_post s post_id author_key content now).2 = false →
      (append_to_post s post_id author_key content now).1 = s) := by
  cases hf : s.posts.find? (fun p => p.id == post_id) with
  | none =>
    have hnone : ∀ q ∈ s.posts, q.id ≠ post_id := by
      intro q hq
      have := List.find?_eq_none.1 hf q hq
      simpa using this
    have happ : append_to_post s post_id author_key content now = (s, false) := by
      simp [append_to_post, hf]
    rw [happ]
    refine ⟨⟨fun h => absurd h (by simp), ?_⟩, fun _ => rfl⟩
    rintro ⟨q, hq, hqid, -⟩
    exact absurd hqid (hnone q hq)
  | some p =>
    have hpid : p.id = post_id := by simpa using List.find?_some hf
    have hpmem : p ∈ s.posts := List.mem_of_find?_eq_some hf
    by_cases ha : p.author_key = author_key
    · have happ : append_to_post s post_id author_key content now =
          (Store.mk s.identities
            (s.posts.map (fun q =>
              if q.id = post_id then { q with appends := p.appends ++ [(now, content)] }
              else q))
            s.likes, true) := by
        simp [append_to_post, hf, ha]
      rw [happ]
      exact ⟨⟨fun _ => ⟨p, hpmem, hpid, ha⟩, fun _ => rfl⟩,
        fun hfalse => by simp at hfalse⟩
    · have happ : append_to_post s post_id author_key content now = (s, false) := by
        simp [append_to_post, hf, ha]
      rw [happ]
      refine ⟨⟨fun h => absurd h (by simp), ?_⟩, fun _ => rfl⟩
      rintro ⟨q, hq, hqid, hqa⟩
      exact absurd
        ((List.inj_on_of_nodup_map hids hq hpmem (hqid.trans hpid.symm)) ▸ hqa) ha

/-- Witness store for C7: one post authored by `k1`. -/
def appendStoreW : Store := Store.mk [] [likedPostW] []

/-- Witness: C7 instantiated — the author's append succeeds, and a
wrong-author append reports `false`. -/
theorem append_to_post_auth_witness :
    (((append_to_post appendStoreW "p1" "k1" "more" 3).2 = true) ↔
      ∃ p ∈ appendStoreW.posts, p.id = "p1" ∧ p.author_key = "k1") ∧
    ((append_to_post appendStoreW "p1" "k1" "more" 3).2 = false →
      (append_to_post appendStoreW "p1" "k1" "more" 3).1 = appendStoreW) :=
  append_to_post_auth appendStoreW "p1" "k1" "more" 3 (by decide)

/-! Scan characterisations: on a store whose blobs all decode, each scan
loop equals its pure filter/map. -/

/-- On well-formed identity rows the shibboleth scan succeeds and keeps
exactly the threshold-reaching pairs, in row order. -/
theorem score_identities_eq (sim : List ℚ → List ℚ → ℚ) (qv : List ℚ)
    (rows : List Identity) (h : ∀ i ∈ rows, i.shibboleth_vector.ragged = 0) :
    score_identities sim qv rows = .ok (rows.filterMap (fun i =>
      if SIMILARITY_THRESHOLD ≤ sim qv i.shibboleth_vector.vals
      then some (i, sim qv i.shibboleth_vector.vals) else none)) := by
  induction rows with
  | nil => rfl
  | cons i rest ih =>
    have hi : i.shibboleth_vector.ragged = 0 := h i (List.mem_cons_self i rest)
    have hr := ih (fun j hj => h j (List.mem_cons_of_mem i hj))
    simp only [score_identities, deserialize_vector, hi, if_pos, hr, List.filterMap_cons]
    by_cases hc : SIMILARITY_THRESHOLD ≤ sim qv i.shibboleth_vector.vals
    · simp [hc]
    · simp [hc]

/-- On well-formed post rows the threshold scan succeeds and keeps exactly
the threshold-reaching pairs, in row order. -/
theorem score_posts_threshold_eq (sim : List ℚ → List ℚ → ℚ) (qv : List ℚ)
    (rows : List Post) (h : ∀ p ∈ rows, p.vector.ragged = 0) :
    score_posts_threshold sim qv rows = .ok (rows.filterMap (fun p =>
      if SIMILARITY_THRESHOLD ≤ sim qv p.vector.vals
      then some (p, sim qv p.vector.vals) else none)) := by
  induction rows with
  | nil => rfl
  | cons p rest ih =>
    have hp : p.vector.ragged = 0 := h p (List.mem_cons_self p rest)
    have hr := ih (fun q hq => h q (List.mem_cons_of_mem p hq))
    simp only [score_posts_threshold, deserialize_vector, hp, if_pos, hr, List.filterMap_cons]
    by_cases hc : SIMILARITY_THRESHOLD ≤ sim qv p.vector.vals
    · simp [hc]
    · simp [hc]

/-- On well-formed post rows the unthresholded scan scores every row, in
row order. -/
theorem score_posts_all_eq (sim : List ℚ → List ℚ → ℚ) (qv : List ℚ)
    (rows : List Post) (h : ∀ p ∈ rows, p.vector.ragged = 0) :
    score_posts_all sim qv rows =
      .ok (rows.map (fun p => (p, sim qv p.vector.vals))) := by
  induction rows with
  | nil => rfl
  | cons p rest ih =>
    have hp : p.vector.ragged = 0 := h p (List.mem_cons_self p rest)
    have hr := ih (fun q hq => h q (List.mem_cons_of_mem p hq))
    simp [score_posts_all, deserialize_vector, hp, hr]

/-- On well-formed post rows the hotness scan scores every row, in row
order. -/
theorem hot_scan_eq (s : Store) (now : ℚ) (rows : List Post)
    (h : ∀ p ∈ rows, p.vector.ragged = 0) :
    hot_scan s now rows = .ok (rows.map (fun p =>
      (p, hotness p.likes (reply_count s p.id)
        (max ((now - p.timestamp) / 3600) (1 / 10))))) := by
  induction rows with
  | nil => rfl
  | cons p rest ih =>
    have hp : p.vector.ragged = 0 := h p (List.mem_cons_self p rest)
    have hr := ih (fun q hq => h q (List.mem_cons_of_mem p hq))
    simp [hot_scan, deserialize_vector, hp, hr]

/-- The stable descending sort of identity results is empty only on the
empty list. -/
theorem sortBySimDescI_eq_nil_iff (l : List (Identity × ℚ)) :
    sortBySimDescI l = [] ↔ l = [] := by
  constructor
  · intro h
    have hperm := List.perm_insertionSort (fun a b : Identity × ℚ => b.2 ≤ a.2) l
    rw [show List.insertionSort (fun a b : Identity × ℚ => b.2 ≤ a.2) l = [] from h] at hperm
    exact hperm.symm.eq_nil
  · intro h
    rw [h]
    rfl

/-! C1 -/

/-- Claim C1: on a store whose stored shibboleth blobs decode, registration
is rejected with a `duplicateShibboleth(matched, similarity)` outcome
exactly when some stored identity's shibboleth vector reaches similarity
0.85 against the candidate, and when every stored vector stays below the
threshold the route proceeds to the atomic insert (success or uniqueness
conflict).  The similarity function is universally quantified, so this
holds in particular for the float cosine similarity. -/
theorem register_shibboleth_scan (sim : List ℚ → List ℚ → ℚ) (s : Store)
    (display_name public_key wireguard_ip shibboleth : String) (v : List ℚ) (now : ℚ)
    (hwf : ∀ i ∈ s.identities, i.shibboleth_vector.ragged = 0) :
    ((∃ i ∈ s.identities, SIMILARITY_THRESHOLD ≤ sim v i.shibboleth_vector.vals) ↔
      (∃ m c, api_register_identity sim s display_name public_key wireguard_ip
        shibboleth v now = .ok (.duplicateShibboleth m c, s))) ∧
    ((∀ i ∈ s.identities, sim v i.shibboleth_vector.vals < SIMILARITY_THRESHOLD) →
      api_register_identity sim s display_name public_key wireguard_ip shibboleth v now
        = .ok (match register_identity s display_name public_key wireguard_ip
            shibboleth v now with
          | some s2 => (RegOutcome.registered, s2)
          | none => (RegOutcome.conflict, s))) := by
  have hscan := score_identities_eq sim v s.identities hwf
  constructor
  · constructor
    · rintro ⟨i, hi, hθ⟩
      have hmemL : (i, sim v i.shibboleth_vector.vals) ∈ s.identities.filterMap
          (fun i => if SIMILARITY_THRESHOLD ≤ sim v i.shibboleth_vector.vals
            then some (i, sim v i.shibboleth_vector.vals) else none) :=
        List.mem_filterMap.2 ⟨i, hi, by rw [if_pos hθ]⟩
      have hLne := List.ne_nil_of_mem hmemL
      have hSne : sortBySimDescI (s.identities.filterMap
          (fun i => if SIMILARITY_THRESHOLD ≤ sim v i.shibboleth_vector.vals
            then some (i, sim v i.shibboleth_vector.vals) else none)) ≠ [] :=
        fun hnil => hLne ((sortBySimDescI_eq_nil_iff _).1 hnil)
      obtain ⟨hd, tl, hcons⟩ := List.exists_cons_of_ne_nil hSne
      obtain ⟨m, c⟩ := hd
      refine ⟨m, c, ?_⟩
      simp [api_register_identity, find_similar_shibboleths, hscan, hcons]
    · rintro ⟨m, c, heq⟩
      by_cases hL : s.identities.filterMap
          (fun i => if SIMILARITY_THRESHOLD ≤ sim v i.shibboleth_vector.vals
            then some (i, sim v i.shibboleth_vector.vals) else none) = []
      · exfalso
        rw [api_register_identity, find_similar_shibboleths, hscan, hL] at heq
        cases hreg : register_identity s display_name public_key wireguard_ip
            shibboleth v now with
        | none => rw [hreg] at heq; simp [sortBySimDescI] at heq
        | some s2 => rw [hreg] at heq; simp [sortBySimDescI] at heq
      · obtain ⟨x, hx⟩ := List.exists_mem_of_ne_nil _ hL
        obtain ⟨i, hi, hfi⟩ := List.mem_filterMap.1 hx
        by_cases hθ : SIMILARITY_THRESHOLD ≤ sim v i.shibboleth_vector.vals
        · exact ⟨i, hi, hθ⟩
        · rw [if_neg hθ] at hfi
          exact absurd hfi (by simp)
  · intro hall
    have hL : s.identities.filterMap
        (fun i => if SIMILARITY_THRESHOLD ≤ sim v i.shibboleth_vector.vals
          then some (i, sim v i.shibboleth_vector.vals) else none) = [] := by
      rw [List.filterMap_eq_nil_iff]
      intro i hi
      rw [if_neg (not_le.2 (hall i hi))]
    rw [api_register_identity, find_similar_shibboleths, hscan, hL]
    cases register_identity s display_name public_key wireguard_ip shibboleth v now with
    | some s2 => rfl
    | none => rfl

/-- A registered identity whose shibboleth blob decodes, for C1's witness. -/
def pendingIdentityW : Identity :=
  Identity.mk "kA" "IdA" "10.0.0.2" 0 "first words" (Blob.mk [1] 0) false

/-- Witness store for C1: one stored identity. -/
def identityStoreW : Store := Store.mk [pendingIdentityW] [] []

/-- A concrete similarity function for the witnesses: 1 on equal vectors,
0 otherwise. -/
def simIndicator : List ℚ → List ℚ → ℚ := fun a b => if a = b then 1 else 0

/-- Witness: C1 instantiated — the stored vector is unrelated to the
candidate, so the route proceeds to the insert. -/
theorem register_shibboleth_scan_witness :
    api_register_identity simIndicator identityStoreW "IdB" "kB" "10.0.0.3" "other" [2] 7
      = .ok (match register_identity identityStoreW "IdB" "kB" "10.0.0.3" "other" [2] 7 with
          | some s2 => (RegOutcome.registered, s2)
          | none => (RegOutcome.conflict, identityStoreW)) :=
  (register_shibboleth_scan simIndicator identityStoreW "IdB" "kB" "10.0.0.3"
    "other" [2] 7 (by decide)).2
    (by
      intro i hi
      have : i = pendingIdentityW := by simpa [identityStoreW] using hi
      rw [this]
      norm_num [simIndicator, pendingIdentityW, SIMILARITY_THRESHOLD])

/-! C2 -/

/-- Claim C2: on a store whose stored blobs decode, the dedup lookup equals
the spec-side description (only the 1000 most recent posts by timestamp are
considered; of those, exactly the pairs at or above threshold 0.85, sorted
stably descending by similarity and truncated to the limit), while semantic
search equals its spec-side description (every post, optionally pre-filtered
by hashtag, no threshold, sorted stably descending by raw similarity, then
offset and limit applied). -/
theorem dedup_window_and_search_spec (sim : List ℚ → List ℚ → ℚ) (qv : List ℚ)
    (s : Store) (hashtag : Option String) (limit offset : ℕ)
    (hwf : ∀ p ∈ s.posts, p.vector.ragged = 0) :
    find_similar_posts sim qv s limit = .ok (spec_find_similar sim qv s limit) ∧
    search_posts sim qv s hashtag limit offset
      = .ok (spec_search sim qv s hashtag limit offset) := by
  constructor
  · have hwf1 : ∀ p ∈ (sortByTimestampDesc s.posts).take 1000, p.vector.ragged = 0 := by
      intro p hp
      have hmem : p ∈ sortByTimestampDesc s.posts := List.mem_of_mem_take hp
      exact hwf p (((List.perm_insertionSort
        (fun a b : Post => b.timestamp ≤ a.timestamp) s.posts).mem_iff).1 hmem)
    rw [find_similar_posts, score_posts_threshold_eq sim qv _ hwf1]
    rfl
  · cases hashtag with
    | none =>
      have hwf2 : ∀ p ∈ sortByTimestampDesc s.posts, p.vector.ragged = 0 := by
        intro p hp
        exact hwf p (((List.perm_insertionSort
          (fun a b : Post => b.timestamp ≤ a.timestamp) s.posts).mem_iff).1 hp)
      rw [search_posts, score_posts_all_eq sim qv _ hwf2]
      rfl
    | some tag =>
      have hwf2 : ∀ p ∈ sortByTimestampDesc
          (s.posts.filter (fun p => hashtag_like tag p.hashtags)),
          p.vector.ragged = 0 := by
        intro p hp
        have hmem : p ∈ s.posts.filter (fun p => hashtag_like tag p.hashtags) :=
          ((List.perm_insertionSort (fun a b : Post => b.timestamp ≤ a.timestamp)
            (s.posts.filter (fun p => hashtag_like tag p.hashtags))).mem_iff).1 hp
        exact hwf p (List.mem_filter.1 hmem).1
      rw [search_posts, score_posts_all_eq sim qv _ hwf2]
      rfl

/-- Witness store for C2: two posts with decodable blobs. -/
def postStoreW : Store :=
  Store.mk [] [likedPostW, Post.mk "p2" "bob" "k2" 4 "yo" (Blob.mk [2] 0) "[\"t\"]" 0 none []] []

/-- Witness: C2 instantiated at a concrete two-post store. -/
theorem dedup_window_and_search_spec_witness :
    find_similar_posts simIndicator [2] postStoreW 5
      = .ok (spec_find_similar simIndicator [2] postStoreW 5) ∧
    search_posts simIndicator [2] postStoreW none 5 0
      = .ok (spec_search simIndicator [2] postStoreW none 5 0) :=
  dedup_window_and_search_spec simIndicator [2] postStoreW none 5 0 (by decide)

/-! C9 -/

/-- A post whose stored vector blob has a byte length that is not a
multiple of 4 (one ragged byte): `np.frombuffer` raises on it. -/
def corruptPostW : Post := Post.mk "bad" "bob" "k2" 0 "x" (Blob.mk [1] 1) "[]" 0 none []

/-- A store holding one well-formed post and one corrupt-blob post. -/
def corruptStoreW : Store := Store.mk [] [likedPostW, corruptPostW] []

/-- Claim C9 (the code at the failing input): with one corrupt vector in
the candidate set, `search_posts` aborts the whole scan with the
storage-corruption error instead of skipping the bad record and scoring the
well-formed post that is also present. -/
theorem search_posts_aborts_on_corrupt_blob :
    search_posts simIndicator [1] corruptStoreW none 20 0 = .error .corruptData ∧
    likedPostW ∈ corruptStoreW.posts ∧ likedPostW.vector.ragged = 0 := by
  refine ⟨?_, by decide, rfl⟩
  rfl

/-! C3 -/

/-- Claim C3 (amended): for a non-empty candidate list and a positive
(configured or defaulted) half-life, `apply_algorithm` computes exactly the
claimed score `similarity * w_sem + (likes / maxLikesInSet) * w_likes +
0.5 ^ (hoursSincePost / halflifeHours) * w_recency` — with the stated
defaults and the max-likes substitution — and returns the pairs stably
sorted descending by that score. -/
theorem apply_algorithm_matches_spec (results : List (Post × ℚ)) (weights : Weights)
    (now : ℚ) (hne : results ≠ [])
    (hpos : (0 : ℚ) < weights.recency_halflife_hours.getD 24) :
    apply_algorithm results weights now = spec_weighted_rank results weights now := by
  simp [apply_algorithm, spec_weighted_rank, recency_factor, hne, hpos]

/-- A zero-liked post at time 0 for the C3 instances. -/
def rankedPostW : Post := Post.mk "pr" "alice" "k1" 0 "r" (Blob.mk [1] 0) "[]" 0 none []

/-- A weights mapping with a negative configured half-life. -/
def negWeightsW : Weights := Weights.mk (some 0) (some 0) (some 1) (some (-24))

/-- Counterexample to C3 as stated: with half-life −24 and a post 24 hours
old, the claimed formula gives recency factor `0.5 ^ (24 / −24) = 2`, but
the code's guard `if halflife_hours > 0 else 1.0` yields factor 1, so the
output scores differ. -/
theorem apply_algorithm_claim_cex :
    apply_algorithm [(rankedPostW, 0)] negWeightsW 86400
      ≠ spec_weighted_rank [(rankedPostW, 0)] negWeightsW 86400 := by
  have hhl : ¬ (0 : ℚ) < (-24 : ℚ) := by norm_num
  have hL : apply_algorithm [(rankedPostW, 0)] negWeightsW 86400
      = [(rankedPostW, 1)] := by
    simp [apply_algorithm, negWeightsW, recency_factor, hhl, sortByScoreDesc,
      List.insertionSort, List.orderedInsert, rankedPostW]
  have hexp : ((86400 - rankedPostW.timestamp) / 3600 / (-24 : ℚ)) = -1 := by
    norm_num [rankedPostW]
  have hR : spec_weighted_rank [(rankedPostW, 0)] negWeightsW 86400
      = [(rankedPostW, 2)] := by
    simp only [spec_weighted_rank, negWeightsW, sortByScoreDesc,
      List.insertionSort, List.orderedInsert, List.map_cons, List.map_nil,
      Option.getD_some, hexp]
    norm_num
  rw [hL, hR]
  simp only [ne_eq, List.cons.injEq, Prod.mk.injEq, and_true]
  norm_num

/-- Witness: C3's amended theorem instantiated with default weights. -/
theorem apply_algorithm_matches_spec_witness :
    ([((rankedPostW : Post), (1 : ℚ))] ≠ []) ∧
    ((0 : ℚ) < (Weights.mk none none none none).recency_halflife_hours.getD 24) ∧
    apply_algorithm [(rankedPostW, 1)] (Weights.mk none none none none) 0
      = spec_weighted_rank [(rankedPostW, 1)] (Weights.mk none none none none) 0 :=
  ⟨by simp, by norm_num,
    apply_algorithm_matches_spec [(rankedPostW, 1)] (Weights.mk none none none none) 0
      (by simp) (by norm_num)⟩

/-! C4 -/

/-- Claim C4: on a store whose blobs decode, the hot listing equals its
spec-side description — only top-level posts are scored, each with hotness
`(likes + replyCount * 2) / (hoursSincePost + 2) ^ 1.5` and the age floored
at 0.1 hours, sorted descending by hotness (offset/limit applied) — and the
scenario value holds: a 1-hour-old post with 3 likes and 1 reply scores
`(3 + 1 * 2) / (1 + 2) ^ 1.5 ≈ 0.962`. -/
theorem hot_listing_spec :
    (∀ (s : Store) (now : ℚ) (hashtag : Option String) (limit offset : ℕ),
      (∀ p ∈ s.posts, p.vector.ragged = 0) →
      list_posts_hot s now hashtag limit offset
        = .ok (spec_hot_list s now hashtag limit offset)) ∧
    hotness 3 1 1 = 5 / (3 : ℝ) ^ (1.5 : ℝ) ∧
    (0.962 : ℝ) < hotness 3 1 1 ∧ hotness 3 1 1 < (0.963 : ℝ) := by
  have hval : hotness 3 1 1 = 5 / (3 : ℝ) ^ (1.5 : ℝ) := by
    norm_num [hotness]
  refine ⟨?_, hval, ?_⟩
  · intro s now hashtag limit offset hwf
    cases hashtag with
    | none =>
      have hwf2 : ∀ p ∈ s.posts.filter (fun p => p.parent_id.isNone),
          p.vector.ragged = 0 :=
        fun p hp => hwf p (List.mem_filter.1 hp).1
      simp only [list_posts_hot]
      rw [hot_scan_eq s now _ hwf2]
      rfl
    | some tag =>
      have hwf2 : ∀ p ∈ s.posts.filter
          (fun p => hashtag_like tag p.hashtags && p.parent_id.isNone),
          p.vector.ragged = 0 :=
        fun p hp => hwf p (List.mem_filter.1 hp).1
      simp only [list_posts_hot]
      rw [hot_scan_eq s now _ hwf2]
      rfl
  · have hx : ((3 : ℝ) ^ (1.5 : ℝ)) ^ (2 : ℕ) = 27 := by
      rw [← Real.rpow_natCast ((3 : ℝ) ^ (1.5 : ℝ)) 2,
        ← Real.rpow_mul (by norm_num : (0 : ℝ) ≤ 3)]
      norm_num
    have hx2 : (3 : ℝ) ^ (1.5 : ℝ) * (3 : ℝ) ^ (1.5 : ℝ) = 27 := by
      rwa [pow_two] at hx
    have hpos : (0 : ℝ) < (3 : ℝ) ^ (1.5 : ℝ) := Real.rpow_pos_of_pos (by norm_num) _
    rw [hval]
    constructor
    · rw [lt_div_iff₀ hpos]
      nlinarith [hx2, hpos]
    · rw [div_lt_iff₀ hpos]
      nlinarith [hx2, hpos]

/-- Witness: C4's listing equality instantiated at the two-post store. -/
theorem hot_listing_spec_witness :
    (∀ p ∈ postStoreW.posts, p.vector.ragged = 0) ∧
    list_posts_hot postStoreW 8 none 20 0 = .ok (spec_hot_list postStoreW 8 none 20 0) :=
  ⟨by decide, hot_listing_spec.1 postStoreW 8 none 20 0 (by decide)⟩

/-! C8 -/

/-- Counterexample to C8 as stated: at the equal-length, zero-norm pair
`[0], [0]` the code performs the division with zero denominator (the float
result is NaN), so no degenerate-vector failure or pre-division check
exists and the claimed guard is false. -/
theorem cosine_guard_cex : ¬ spec_cosine_guard := by
  intro h
  have hzero : sq_norm [(0 : ℚ)] = 0 := by norm_num [sq_norm]
  have h2 := (h [0] [0]).2 (Or.inl hzero)
  apply h2
  simp [cosine_similarity, hzero]

/-- Claim C8 (amended): cosine similarity fails with the dimension-mismatch
(shape) error exactly when the vector lengths differ; when the lengths
agree it never raises, and it performs the zero-denominator division
(returning the float NaN rather than a degenerate-vector error) exactly
when either vector has zero norm. -/
theorem cosine_similarity_checks (vec1 vec2 : List ℚ) :
    (cosine_similarity vec1 vec2 = .error .dimMismatch ↔
      vec1.length ≠ vec2.length) ∧
    (vec1.length = vec2.length →
      (cosine_similarity vec1 vec2 = .ok .divByZero ↔
        (sq_norm vec1 = 0 ∨ sq_norm vec2 = 0))) := by
  constructor
  · by_cases hl : vec1.length = vec2.length
    · constructor
      · intro h
        by_cases hz : sq_norm vec1 = 0 ∨ sq_norm vec2 = 0
        · rw [cosine_similarity, if_pos hl, if_pos hz] at h
          exact absurd h (by simp)
        · rw [cosine_similarity, if_pos hl, if_neg hz] at h
          exact absurd h (by simp)
      · intro h
        exact absurd hl h
    · rw [cosine_similarity, if_neg hl]
      simp [hl]
  · intro hl
    by_cases hz : sq_norm vec1 = 0 ∨ sq_norm vec2 = 0
    · rw [cosine_similarity, if_pos hl, if_pos hz]
      simp [hz]
    · rw [cosine_similarity, if_pos hl, if_neg hz]
      simp [hz]

/-- Witness: C8's amended theorem instantiated at the equal-length pair
`[0]`, `[1]`. -/
theorem cosine_similarity_checks_witness :
    (cosine_similarity [(0 : ℚ)] [1] = .error .dimMismatch ↔
      ([(0 : ℚ)].length ≠ [(1 : ℚ)].length)) ∧
    (cosine_similarity [(0 : ℚ)] [1] = .ok .divByZero ↔
      (sq_norm [(0 : ℚ)] = 0 ∨ sq_norm [(1 : ℚ)] = 0)) :=
  ⟨(cosine_similarity_checks [0] [1]).1,
   (cosine_similarity_checks [0] [1]).2 rfl⟩

/-! C10 -/

/-- The inductive invariant of reachable stores: every ledger row points at
an existing post, and every post's counter equals its ledger row count. -/
theorem reachable_inv (s : Store) (h : Reachable s) :
    (∀ r ∈ s.likes, ∃ p ∈ s.posts, p.id = r.post_id) ∧
    (∀ p ∈ s.posts, p.likes = ledger_count s p.id) := by
  induction h with
  | empty =>
    exact ⟨fun r hr => absurd hr (List.not_mem_nil r),
      fun p hp => absurd hp (List.not_mem_nil p)⟩
  | create s id author author_key content vector hashtags parent_id now hs hfresh ih =>
    constructor
    · intro r hr
      obtain ⟨p, hp, hpid⟩ := ih.1 r hr
      exact ⟨p, List.mem_append_left _ hp, hpid⟩
    · intro p hp
      rcases List.mem_append.1 hp with hold | hnew
      · exact ih.2 p hold
      · have hpeq : p = Post.mk id author author_key now content
            (serialize_vector vector) (json_dumps_tags hashtags) 0 parent_id [] := by
          simpa using hnew
      -- the fresh id has no ledger rows: each row points at an old post
      -- whose id differs from the fresh one
        have hcount : ledger_count (create_post s id author author_key content
            vector hashtags parent_id now) id = 0 := by
          simp only [ledger_count, create_post]
          rw [List.length_eq_zero, List.filter_eq_nil_iff]
          intro r hr
          obtain ⟨q, hq, hqid⟩ := ih.1 r hr
          simp only [beq_iff_eq]
          intro hrid
          exact hfresh q hq (hqid.trans hrid)
        rw [hpeq]
        simpa using hcount.symm
  | like s post_id user_key now hs hmem ih =>
    by_cases hb : likeRowPresent s post_id user_key
    · rw [show (like_post s post_id user_key now).1 = s from
        congrArg Prod.fst (like_post_of_present s post_id user_key now hb)]
      exact ih
    · have hb' : likeRowPresent s post_id user_key = false := by simpa using hb
      rw [like_post_of_fresh s post_id user_key now hb']
      have hid_pres : ∀ p : Post,
          (if p.id = post_id then { p with likes := p.likes + 1 } else p).id = p.id := by
        intro p
        by_cases hp : p.id = post_id <;> simp [hp]
      constructor
      · intro r hr
        rcases List.mem_append.1 hr with hold | hnewr
        · obtain ⟨p, hp, hpid⟩ := ih.1 r hold
          refine ⟨if p.id = post_id then { p with likes := p.likes + 1 } else p,
            List.mem_map_of_mem _ hp, ?_⟩
          rw [hid_pres p, hpid]
        · obtain ⟨p, hp, hpid⟩ := hmem
          have hreq : r = LikeRow.mk post_id user_key now := by simpa using hnewr
          refine ⟨if p.id = post_id then { p with likes := p.likes + 1 } else p,
            List.mem_map_of_mem _ hp, ?_⟩
          rw [hid_pres p, hpid, hreq]
      · intro q hq
        obtain ⟨p, hp, hpq⟩ := List.mem_map.1 hq
        have hcount : ∀ pid : String,
            ledger_count (Store.mk s.identities
              (s.posts.map (fun p =>
                if p.id = post_id then { p with likes := p.likes + 1 } else p))
              (s.likes ++ [LikeRow.mk post_id user_key now])) pid
            = ledger_count s pid + (if post_id = pid then 1 else 0) := by
          intro pid
          simp only [ledger_count, List.filter_append, List.length_append]
          congr 1
          by_cases hpids : post_id = pid <;> simp [hpids]
        by_cases hp_id : p.id = post_id
        · have hq_eq : q = { p with likes := p.likes + 1 } := by
            rw [← hpq, if_pos hp_id]
          rw [hq_eq]
          have hqid : ({ p with likes := p.likes + 1 } : Post).id = p.id := rfl
          simp only [hqid]
          rw [hcount p.id, ih.2 p hp, if_pos hp_id.symm]
        · have hq_eq : q = p := by rw [← hpq, if_neg hp_id]
          rw [hq_eq, hcount p.id, ih.2 p hp, if_neg (fun h => hp_id h.symm), Nat.add_zero]

/-- Claim C10: in every store reachable from an empty store by `create_post`
and by `like_post` on existing post ids, each post's `likes` counter equals
the number of ledger rows carrying its id. -/
theorem reachable_likes_match_ledger (s : Store) (h : Reachable s) :
    ∀ p ∈ s.posts, p.likes = ledger_count s p.id :=
  (reachable_inv s h).2

/-- The store reached by one create and one like, for C10's witness. -/
def reachedStoreW : Store :=
  (like_post (create_post (Store.mk [] [] []) "p1" "alice" "k1" "hello" [1] [] none 0)
    "p1" "k2" 1).1

/-- The post of `reachedStoreW` after its single like. -/
def reachedPostW : Post := Post.mk "p1" "alice" "k1" 0 "hello" (Blob.mk [1] 0) "[]" 1 none []

/-- Witness: C10 instantiated at a concrete reachable store. -/
theorem reachable_likes_match_ledger_witness :
    reachedPostW.likes = ledger_count reachedStoreW reachedPostW.id :=
  reachable_likes_match_ledger reachedStoreW
    (Reachable.like (create_post (Store.mk [] [] []) "p1" "alice" "k1" "hello" [1] [] none 0)
      "p1" "k2" 1
      (Reachable.create (Store.mk [] [] []) "p1" "alice" "k1" "hello" [1] [] none 0
        Reachable.empty (by decide))
      (by decide))
    reachedPostW (by decide)

end BBS
